import Mathlib

/-!
Verification development for the local-first, versioned asset synchronization
layer of the `menu` repository (`lib/storage.js` and `lib/cloudAssets.js`).

The JavaScript source is shallowly embedded below.  The embedding covers the
two revisions of `lib/storage.js` that the claims cite (the first revision,
src/unnamed/part_000 lines 1-211, as `saveBlob`, `syncBlobFromCloud`, ...; the
later revision, lines 211-492, as `syncBlobFromCloudV2`, `removeKeyV2`, ...)
and the revision of `lib/cloudAssets.js` at lines 651-1008 (`uploadAsset`,
`listLatestVersionPath`, `downloadAssetBlob`, `downloadJsonAsset`,
`getLatestAssetVersion`).  In that cloudAssets revision the compile-time
switches are constants: `USE_SERVER_SIGNING = false` (it is literally
`!IS_LOCALHOST_APP && false`), `ENABLE_LEGACY_MIRROR = false`,
`DISABLE_LEGACY_FALLBACK = true`; the dead server-signing and legacy branches
are therefore omitted from the embedding, exactly as the constants erase them.

External collaborators are modelled as explicit state and environment:
  * `idb-keyval` (get/set/del) is a map `String -> Option Val`; `undefined`
    and JS `null` results are both `none` (the code only ever stores real
    values, so `data !== undefined && data !== null` is `Option.isSome`).
  * Supabase object storage is an association list path -> bytes; folder
    listing, download and upload read/extend it.  Network/permission
    failures of list / download / upload / remove are injected through
    Boolean flags of the environment, matching the source's policy of
    degrading each of them to null / a caught exception.
  * The ambient session is `currentUser` (lib/session's getCurrentUser, used
    for local scoping) and `sessionUser` (the supabase auth session's user
    id, used for remote paths); `sessionThrows` makes `auth.getSession()`
    reject, which the source swallows in its try/catch blocks.
  * `JSON.parse` / `JSON.stringify` of the JS runtime are the abstract
    `parse` / `stringify` fields of the environment (`parse` returns `none`
    where `JSON.parse` would throw).
  * `Date.now()` is the `now` field; JS template-literal coercion of the
    number to decimal text is `natStr`.
-/

namespace MenuSync

/-! ### JavaScript string primitives

JS string comparison (`a < b`) is lexicographic on UTF-16 code units; all
strings manipulated by this layer are ASCII, so comparing `Char` code points
is the same order.  The helpers below are executable replacements for the JS
string methods the source uses (`includes`, `endsWith`, `split('/').pop()`,
`trim`, `replace(/\\/g,'/')`, `replace(/^\/+/,'')`). -/

def charLtB (a b : Char) : Bool := decide (a.toNat < b.toNat)

def strLtL : List Char → List Char → Bool
  | [], [] => false
  | [], _ :: _ => true
  | _ :: _, [] => false
  | a :: as, b :: bs =>
    if charLtB a b then true
    else if charLtB b a then false
    else strLtL as bs

/-- JS `a < b` on strings. -/
def strLt (a b : String) : Bool := strLtL a.data b.data

def isPrefixOfL : List Char → List Char → Bool
  | [], _ => true
  | _ :: _, [] => false
  | a :: as, b :: bs => decide (a = b) && isPrefixOfL as bs

def containsSubL : List Char → List Char → Bool
  | [], sub => decide (sub = [])
  | h :: t, sub => isPrefixOfL sub (h :: t) || containsSubL t sub

/-- JS `s.includes(sub)`. -/
def strIncludes (s sub : String) : Bool := containsSubL s.data sub.data

/-- JS `s.endsWith(suffix)`. -/
def strEndsWith (s suffix : String) : Bool :=
  isPrefixOfL suffix.data.reverse s.data.reverse

/-- JS `s.split('/').pop()`: the segment after the last slash (the whole
string when there is no slash). -/
def lastSeg (l : List Char) : List Char :=
  (l.reverse.takeWhile (fun c => !(decide (c = '/')))).reverse

def isWS (c : Char) : Bool :=
  decide (c = ' ') || decide (c = '\t') || decide (c = '\n') || decide (c = '\r')

/-- JS `s.trim()` (ASCII whitespace). -/
def jsTrim (s : String) : String :=
  String.mk (((s.data.dropWhile isWS).reverse.dropWhile isWS).reverse)

/-- Decimal digit character, as JS number-to-string coercion renders it. -/
def digitChar (n : Nat) : Char :=
  match n with
  | 0 => '0' | 1 => '1' | 2 => '2' | 3 => '3' | 4 => '4'
  | 5 => '5' | 6 => '6' | 7 => '7' | 8 => '8' | _ => '9'

/-- Fuel-indexed decimal rendering; the fuel only bounds the recursion depth
(one step per digit), any fuel greater than `n` yields the digits of `n`. -/
def natDigitsAux : Nat → Nat → List Char
  | 0, _ => []
  | fuel + 1, n =>
    if n < 10 then [digitChar n]
    else natDigitsAux fuel (n / 10) ++ [digitChar (n % 10)]

/-- Decimal digits of `n`, most significant first. -/
def natDigits (n : Nat) : List Char := natDigitsAux (n + 1) n

/-- JS template-literal rendering of `Date.now()` (a decimal integer). -/
def natStr (n : Nat) : String := String.mk (natDigits n)

/-! ### Data model -/

/-- A parsed JSON document, identified by its serialized text.  No claim
inspects JSON structure, so the document is abstract apart from equality. -/
structure Json where
  raw : String
deriving DecidableEq, Repr

/-- A JS `File`/`Blob`: its bytes and, for `File`, its `name`. -/
structure FileBlob where
  content : String
  name : Option String
deriving DecidableEq, Repr

/-- A value held by the idb-keyval local cache: a cached blob, a cached JSON
document, or a version-marker path string (`setStoredVersion` stores the
remote object path as a plain string). -/
inductive Val where
  | blob (b : FileBlob)
  | json (j : Json)
  | str (s : String)
deriving DecidableEq, Repr

/-- The supabase storage bucket: full object path ↦ object bytes. -/
abbrev RemoteObjs : Type := List (String × String)

/-- Environment: session providers, injected remote-failure outcomes, the
clock, and the JS JSON runtime. -/
structure SyncEnv where
  /-- JS `getCurrentUser()` from lib/session (scopes local keys). -/
  currentUser : Option String
  /-- the supabase auth session's user id; `none` = no session. -/
  sessionUser : Option String
  /-- JS `supabase.auth.getSession()` rejects. -/
  sessionThrows : Bool
  /-- JS `storage.list` errors (listing denied / network failure). -/
  listFails : Bool
  /-- JS `storage.download` errors even for existing objects. -/
  downloadFails : Bool
  /-- JS `storage.upload` errors. -/
  uploadFails : Bool
  /-- JS `storage.remove` errors. -/
  removeFails : Bool
  /-- JS `Date.now()`. -/
  now : Nat
  /-- JS `JSON.parse`; `none` where it would throw. -/
  parse : String → Option Json
  /-- JS `JSON.stringify`. -/
  stringify : Json → String

/-- Combined state: the idb-keyval cache and the remote bucket. -/
structure Store where
  idb : String → Option Val
  remote : RemoteObjs

def setIdb (st : Store) (k : String) (v : Val) : Store :=
  { st with idb := fun q => if q = k then some v else st.idb q }

def delIdb (st : Store) (k : String) : Store :=
  { st with idb := fun q => if q = k then none else st.idb q }

def findObj : RemoteObjs → String → Option String
  | [], _ => none
  | (p, c) :: rest, q => if p = q then some c else findObj rest q

/-! ### lib/cloudAssets.js (revision at part_000 lines 651-1008) -/

/-- JS `normalizeName`: replace backslashes by slashes and strip leading
slashes (`/^\/+/`). -/
def normalizeName (name : String) : String :=
  String.mk ((name.data.map (fun c => if c = '\\' then '/' else c)).dropWhile
    (fun c => decide (c = '/')))

/-- JS `storage.from(BUCKET).list(folder)`: the names of the objects directly
under `folder/`. -/
def listFolder (remote : RemoteObjs) (folder : String) : List String :=
  remote.filterMap (fun e =>
    if isPrefixOfL (folder ++ "/").data e.1.data then
      let rest : List Char := e.1.data.drop (folder ++ "/").data.length
      if decide (rest = []) then none
      else if rest.contains '/' then none
      else some (String.mk rest)
    else none)

/-- JS `[...list].sort((a, b) => (a.name < b.name ? 1 : -1))[0]`: the comparator
is a strict descending order on the (distinct) names, so the head of the
sorted array is the lexicographically greatest name. -/
def latestName (names : List String) : Option String :=
  names.foldl (fun acc n =>
    match acc with
    | none => some n
    | some m => if strLt m n then some n else some m) none

/-- JS `listLatestVersionPath({ userId, assetKey })` (lines 749-764). -/
def listLatestVersionPath (env : SyncEnv) (remote : RemoteObjs)
    (userId assetKey : String) : Option String :=
  let folder := userId ++ "/" ++ assetKey
  if env.listFails then none
  else
    let names := (listFolder remote folder).filter (fun n => !(decide (n = "")))
    match latestName names with
    | none => none
    | some latest => some (folder ++ "/" ++ normalizeName latest)

/-- JS `uploadAsset`'s local `inferredFilename`: the trimmed `file.name` when it
is a non-empty string, else `assetKey + ".bin"`. -/
def inferredFilename (assetKey : String) (file : FileBlob) : String :=
  match file.name with
  | some n => if jsTrim n = "" then assetKey ++ ".bin" else jsTrim n
  | none => assetKey ++ ".bin"

/-- JS `uploadAsset({ assetKey, file, contentType })` (lines 844-899), with the
dead `USE_SERVER_SIGNING` branch erased.  Throwing is `Except.error`;
`upsert: false` rejects an already-existing path; the trailing
`upsertLegacyAsset` call is a no-op (`ENABLE_LEGACY_MIRROR = false`).
`contentType` is not modelled: no claim observes it. -/
def uploadAsset (env : SyncEnv) (remote : RemoteObjs) (assetKey : String)
    (file : FileBlob) : Except Unit (Option String × RemoteObjs) :=
  if assetKey = "" then Except.ok (none, remote)
  else
    match env.sessionUser with
    | none => Except.error ()
    | some userId =>
      let objectPath :=
        userId ++ "/" ++ assetKey ++ "/" ++ natStr env.now ++ "-" ++
          inferredFilename assetKey file
      if env.uploadFails then Except.error ()
      else
        match findObj remote objectPath with
        | some _ => Except.error ()
        | none => Except.ok (some objectPath, (objectPath, file.content) :: remote)

/-- JS `uploadJsonAsset({ assetKey, data })` (lines 901-907): serialize
`data ?? {}` into a `File` named `assetKey + ".json"` and upload it. -/
def uploadJsonAsset (env : SyncEnv) (remote : RemoteObjs) (assetKey : String)
    (data : Json) : Except Unit (Option String × RemoteObjs) :=
  if assetKey = "" then Except.ok (none, remote)
  else uploadAsset env remote assetKey ⟨env.stringify data, some (assetKey ++ ".json")⟩

/-- JS `downloadAssetBlob(assetKey)` (lines 912-962): list the version folder,
download its lexicographically greatest object; every failure degrades to
null (`DISABLE_LEGACY_FALLBACK = true` kills the legacy path). -/
def downloadAssetBlob (env : SyncEnv) (remote : RemoteObjs)
    (assetKey : String) : Option String :=
  if assetKey = "" then none
  else
    match env.sessionUser with
    | none => none
    | some userId =>
      match listLatestVersionPath env remote userId assetKey with
      | none => none
      | some latestPath =>
        if env.downloadFails then none
        else
          match findObj remote latestPath with
          | none => none
          | some content => some content

/-- JS `downloadAssetBlobByPath(objectPath)` (lines 965-974). -/
def downloadAssetBlobByPath (env : SyncEnv) (remote : RemoteObjs)
    (objectPath : String) : Option String :=
  if objectPath = "" then none
  else if env.downloadFails then none
  else findObj remote objectPath

/-- JS `downloadJsonAsset(assetKey)` (lines 976-987): fetch bytes, `JSON.parse`
them, and degrade a parse failure to null. -/
def downloadJsonAsset (env : SyncEnv) (remote : RemoteObjs)
    (assetKey : String) : Option Json :=
  match downloadAssetBlob env remote assetKey with
  | none => none
  | some content =>
    match env.parse content with
    | some j => some j
    | none => none

/-- JS `getLatestAssetVersion(assetKey)` (lines 992-1008); the JS returns
`{ version, path }` with `version = path`, modelled as the version string.
The legacy fallback is dead (`DISABLE_LEGACY_FALLBACK = true`). -/
def getLatestAssetVersion (env : SyncEnv) (remote : RemoteObjs)
    (assetKey : String) : Option String :=
  if assetKey = "" then none
  else
    match env.sessionUser with
    | none => none
    | some userId =>
      match listLatestVersionPath env remote userId assetKey with
      | none => none
      | some latestPath => some latestPath

/-! ### lib/storage.js (first revision, part_000 lines 1-211) -/

def VERSION_SUFFIX : String := "__remoteVersion"

/-- JS `withUserScope(key)` (lines 23-27). -/
def withUserScope (env : SyncEnv) (key : String) : String × Option String :=
  match env.currentUser with
  | none => (key, none)
  | some user => (user ++ "__" ++ key, some user)

/-- JS `versionKey(key)` (lines 29-31). -/
def versionKey (key : String) : String := key ++ VERSION_SUFFIX

/-- JS `loadLocalValue(key)` (lines 33-48): read the owner-scoped key; on a
miss, lazily migrate a value found under the global legacy key to the
owner-scoped key (set then delete).  Returns the value and the possibly
migrated cache. -/
def loadLocalValue (env : SyncEnv) (st : Store) (key : String) :
    Option Val × Store :=
  let scopedKey := (withUserScope env key).1
  match st.idb scopedKey with
  | some data => (some data, st)
  | none =>
    match (withUserScope env key).2 with
    | some _ =>
      if scopedKey = key then (none, st)
      else
        match st.idb key with
        | some fallback => (some fallback, delIdb (setIdb st scopedKey fallback) key)
        | none => (none, st)
    | none => (none, st)

/-- JS `getStoredVersion(key)` (lines 50-53). -/
def getStoredVersion (env : SyncEnv) (st : Store) (key : String) : Option Val :=
  st.idb (withUserScope env (versionKey key)).1

/-- JS `setStoredVersion(key, version)` (lines 55-59): falsy versions (null /
empty) are not stored. -/
def setStoredVersion (env : SyncEnv) (st : Store) (key : String)
    (version : Option String) : Store :=
  match version with
  | none => st
  | some v =>
    if v = "" then st
    else setIdb st (withUserScope env (versionKey key)).1 (Val.str v)

/-- JS `loadLocalBlob(key)` (lines 61-64); `.1` is the returned data, `.2` the
(possibly migrated) cache. -/
def loadLocalBlob (env : SyncEnv) (st : Store) (key : String) :
    Option Val × Store :=
  loadLocalValue env st key

/-- JS `loadLocalJson(key)` (lines 66-69). -/
def loadLocalJson (env : SyncEnv) (st : Store) (key : String) :
    Option Val × Store :=
  loadLocalValue env st key

/-- JS `saveBlob(key, blob)` (lines 71-89): local cache write first, then a
best-effort remote upload whose failure (or missing session) is swallowed;
on upload success the returned path becomes the stored version marker.
Local cache operations themselves are assumed to succeed (a local-storage
failure is the one error class the source does surface), so the embedded
operation is total: every run "returns success to the caller". -/
def saveBlob (env : SyncEnv) (st : Store) (key : String) (blob : FileBlob) :
    Store :=
  let scopedKey := (withUserScope env key).1
  let st1 := setIdb st scopedKey (Val.blob blob)
  if env.sessionThrows then st1
  else
    match env.sessionUser with
    | none => st1
    | some _ =>
      match uploadAsset env st1.remote key blob with
      | Except.error _ => st1
      | Except.ok (remotePath, remote2) =>
        setStoredVersion env { st1 with remote := remote2 } key remotePath

/-- JS `saveJson(key, data)` (lines 96-112). -/
def saveJson (env : SyncEnv) (st : Store) (key : String) (data : Json) :
    Store :=
  let scopedKey := (withUserScope env key).1
  let st1 := setIdb st scopedKey (Val.json data)
  if env.sessionThrows then st1
  else
    match env.sessionUser with
    | none => st1
    | some _ =>
      match uploadJsonAsset env st1.remote key data with
      | Except.error _ => st1
      | Except.ok (remotePath, remote2) =>
        setStoredVersion env { st1 with remote := remote2 } key remotePath

/-- Observed outcome of one reconciliation pass: the `{updated, data}`
result, whether the `onRemoteDiff` callback would have been invoked
(`notified`), whether a content download was attempted (`fetched`), and the
resulting state. -/
structure SyncResult where
  updated : Bool
  data : Option Val
  notified : Bool
  fetched : Bool
  st : Store

/-- JS `syncBlobFromCloud(key, { onRemoteDiff })` (first revision, lines
119-145).  The JS guard `localVersion && localVersion === remoteVersion.version`
is strict string equality against a (necessarily truthy) non-empty remote
version, so it is `getStoredVersion = some (Val.str remoteVer)`. -/
def syncBlobFromCloud (env : SyncEnv) (st : Store) (key : String) : SyncResult :=
  if env.sessionThrows then ⟨false, none, false, false, st⟩
  else
    match env.sessionUser with
    | none => ⟨false, none, false, false, st⟩
    | some _ =>
      match getLatestAssetVersion env st.remote key with
      | none => ⟨false, none, false, false, st⟩
      | some remoteVer =>
        if remoteVer = "" then ⟨false, none, false, false, st⟩
        else if getStoredVersion env st key = some (Val.str remoteVer) then
          ⟨false, none, false, false, st⟩
        else
          match downloadAssetBlob env st.remote key with
          | none => ⟨false, none, true, true, st⟩
          | some content =>
            let st1 := setIdb st (withUserScope env key).1 (Val.blob ⟨content, none⟩)
            let st2 := setStoredVersion env st1 key (some remoteVer)
            ⟨true, some (Val.blob ⟨content, none⟩), true, true, st2⟩

/-- JS `syncJsonFromCloud(key, { onRemoteDiff })` (first revision, lines
147-173). -/
def syncJsonFromCloud (env : SyncEnv) (st : Store) (key : String) : SyncResult :=
  if env.sessionThrows then ⟨false, none, false, false, st⟩
  else
    match env.sessionUser with
    | none => ⟨false, none, false, false, st⟩
    | some _ =>
      match getLatestAssetVersion env st.remote key with
      | none => ⟨false, none, false, false, st⟩
      | some remoteVer =>
        if remoteVer = "" then ⟨false, none, false, false, st⟩
        else if getStoredVersion env st key = some (Val.str remoteVer) then
          ⟨false, none, false, false, st⟩
        else
          match downloadJsonAsset env st.remote key with
          | none => ⟨false, none, true, true, st⟩
          | some j =>
            let st1 := setIdb st (withUserScope env key).1 (Val.json j)
            let st2 := setStoredVersion env st1 key (some remoteVer)
            ⟨true, some (Val.json j), true, true, st2⟩

/-- JS `removeKey(key)` (first revision, lines 175-192): delete the scoped value
and its version marker locally, then best-effort remote removal of the single
legacy path, all remote failures swallowed. -/
def removeKey (env : SyncEnv) (st : Store) (key : String) : Store :=
  let st1 := delIdb st (withUserScope env key).1
  let st2 := delIdb st1 (withUserScope env (versionKey key)).1
  if env.sessionThrows then st2
  else
    match env.sessionUser with
    | none => st2
    | some userId =>
      if env.removeFails then st2
      else
        { st2 with
          remote := st2.remote.filter (fun e => !(decide (e.1 = userId ++ "/" ++ key))) }

/-! ### lib/storage.js (later revision, part_000 lines 211-492) -/

/-- JS `looksLikeFilePath(p)` from the later revision's sync functions:
`typeof p === 'string' && p.includes("/"+key+"/") && !p.endsWith("/"+key)
 && p.split('/').pop()?.includes('-')`. -/
def looksLikeFilePath (key : String) (v : Option Val) : Bool :=
  match v with
  | some (Val.str p) =>
    strIncludes p ("/" ++ key ++ "/") &&
    !(strEndsWith p ("/" ++ key)) &&
    (lastSeg p.data).contains '-'
  | _ => false

/-- JS `syncBlobFromCloud(key, { onRemoteDiff })` (later revision, lines
330-368): reads the stored version first, tolerates a blocked listing
(`remotePath = remoteVersion?.version || null`), and when the stored marker
looks like a file path downloads it directly instead of listing. -/
def syncBlobFromCloudV2 (env : SyncEnv) (st : Store) (key : String) : SyncResult :=
  if env.sessionThrows then ⟨false, none, false, false, st⟩
  else
    match env.sessionUser with
    | none => ⟨false, none, false, false, st⟩
    | some _ =>
      let localVersion := getStoredVersion env st key
      let remotePath : Option String :=
        match getLatestAssetVersion env st.remote key with
        | some v => if v = "" then none else some v
        | none => none
      let isSame : Bool :=
        match remotePath with
        | some rp => decide (localVersion = some (Val.str rp))
        | none => false
      if isSame then ⟨false, none, false, false, st⟩
      else
        let blob :=
          if looksLikeFilePath key localVersion then
            match localVersion with
            | some (Val.str p) => downloadAssetBlobByPath env st.remote p
            | _ => none
          else downloadAssetBlob env st.remote key
        match blob with
        | none => ⟨false, none, true, true, st⟩
        | some content =>
          let st1 := setIdb st (withUserScope env key).1 (Val.blob ⟨content, none⟩)
          let st2 :=
            match remotePath with
            | some rp => setStoredVersion env st1 key (some rp)
            | none => st1
          ⟨true, some (Val.blob ⟨content, none⟩), true, true, st2⟩

/-- JS `syncJsonFromCloud(key, { onRemoteDiff })` (later revision, lines
370-410): same shape, parsing the fetched bytes as JSON; a parse failure
becomes `json = null`. -/
def syncJsonFromCloudV2 (env : SyncEnv) (st : Store) (key : String) : SyncResult :=
  if env.sessionThrows then ⟨false, none, false, false, st⟩
  else
    match env.sessionUser with
    | none => ⟨false, none, false, false, st⟩
    | some _ =>
      let localVersion := getStoredVersion env st key
      let remotePath : Option String :=
        match getLatestAssetVersion env st.remote key with
        | some v => if v = "" then none else some v
        | none => none
      let isSame : Bool :=
        match remotePath with
        | some rp => decide (localVersion = some (Val.str rp))
        | none => false
      if isSame then ⟨false, none, false, false, st⟩
      else
        let json : Option Json :=
          if looksLikeFilePath key localVersion then
            match localVersion with
            | some (Val.str p) =>
              match downloadAssetBlobByPath env st.remote p with
              | some content => env.parse content
              | none => none
            | _ => none
          else downloadJsonAsset env st.remote key
        match json with
        | none => ⟨false, none, true, true, st⟩
        | some j =>
          let st1 := setIdb st (withUserScope env key).1 (Val.json j)
          let st2 :=
            match remotePath with
            | some rp => setStoredVersion env st1 key (some rp)
            | none => st1
          ⟨true, some (Val.json j), true, true, st2⟩

/-- JS `removeKey(key)` (later revision, lines 412-445): same local deletions,
then best-effort remote removal of every listed object in the version folder
plus the legacy prefix. -/
def removeKeyV2 (env : SyncEnv) (st : Store) (key : String) : Store :=
  let st1 := delIdb st (withUserScope env key).1
  let st2 := delIdb st1 (withUserScope env (versionKey key)).1
  if env.sessionThrows then st2
  else
    match env.sessionUser with
    | none => st2
    | some userId =>
      let prefixPath := userId ++ "/" ++ key
      let listed :=
        if env.listFails then []
        else (listFolder st2.remote prefixPath).map (fun n => prefixPath ++ "/" ++ n)
      let paths := listed ++ [prefixPath]
      if env.removeFails then st2
      else { st2 with remote := st2.remote.filter (fun e => !(paths.contains e.1)) }

/-! ### Concrete fixtures (used by witnesses and counterexamples) -/

/-- Environment with no session at all (local-cache-only operation). -/
def noSessionEnv : SyncEnv :=
  ⟨none, none, false, false, false, false, false, 1700000000000,
   fun _ => none, fun _ => ""⟩

/-- Environment for an authenticated user `u`, all remote operations
healthy; `parse` rejects everything (only exercised by JSON-corruption
scenarios) and `stringify` is trivial (no claim observes upload bytes). -/
def userEnv (u : String) : SyncEnv :=
  ⟨some u, some u, false, false, false, false, false, 1700000000000,
   fun _ => none, fun _ => ""⟩

/-- The empty combined state: empty cache, empty bucket. -/
def emptyStore : Store := ⟨fun _ => none, []⟩

/-- A cache holding exactly one key, with an empty bucket. -/
def singletonStore (k : String) (v : Val) : Store :=
  ⟨fun q => if q = k then some v else none, []⟩

end MenuSync

namespace MenuSync

/-! ### Basic lemmas about the embedding -/

lemma str_data_append (a b : String) : (a ++ b).data = a.data ++ b.data := by
  cases a; cases b; rfl

lemma strLen_append (a b : String) : (a ++ b).length = a.length + b.length := by
  cases a; cases b; simp [String.length, String.append]

lemma ne_of_strLen (a b : String) (h : a.length ≠ b.length) : a ≠ b := by
  intro he; exact h (by rw [he])

lemma len_sep : ("__" : String).length = 2 := rfl

lemma len_suffix : VERSION_SUFFIX.length = 15 := rfl

/-- The owner-scoped content key never collides with the version-marker key. -/
lemma scoped_ne_marker (env : SyncEnv) (k : String) :
    (withUserScope env k).1 ≠ (withUserScope env (versionKey k)).1 := by
  apply ne_of_strLen
  cases h : env.currentUser <;>
    simp [withUserScope, h, versionKey, strLen_append, len_sep, len_suffix] <;>
    try omega

/-- A scoped key of an authenticated user never equals the bare key. -/
lemma key_ne_scoped (u k : String) : k ≠ u ++ "__" ++ k := by
  apply ne_of_strLen
  simp [strLen_append, len_sep]
  try omega

/-- The bare key never equals any version-marker key. -/
lemma key_ne_marker (env : SyncEnv) (k : String) :
    k ≠ (withUserScope env (versionKey k)).1 := by
  apply ne_of_strLen
  cases h : env.currentUser <;>
    simp [withUserScope, h, versionKey, strLen_append, len_sep, len_suffix] <;>
    try omega

lemma setIdb_idb_self (st : Store) (k : String) (v : Val) :
    (setIdb st k v).idb k = some v := by simp [setIdb]

lemma setIdb_idb_ne (st : Store) (k : String) (v : Val) (q : String) (h : q ≠ k) :
    (setIdb st k v).idb q = st.idb q := by simp [setIdb, h]

lemma delIdb_idb_self (st : Store) (k : String) : (delIdb st k).idb k = none := by
  simp [delIdb]

lemma delIdb_idb_ne (st : Store) (k q : String) (h : q ≠ k) :
    (delIdb st k).idb q = st.idb q := by simp [delIdb, h]

lemma setStoredVersion_remote (env : SyncEnv) (st : Store) (k : String)
    (v : Option String) : (setStoredVersion env st k v).remote = st.remote := by
  cases v with
  | none => rfl
  | some s => by_cases h : s = "" <;> simp [setStoredVersion, h, setIdb]

lemma setStoredVersion_idb_ne (env : SyncEnv) (st : Store) (k : String)
    (v : Option String) (q : String)
    (h : q ≠ (withUserScope env (versionKey k)).1) :
    (setStoredVersion env st k v).idb q = st.idb q := by
  cases v with
  | none => rfl
  | some s => by_cases hs : s = "" <;> simp [setStoredVersion, hs, setIdb, h]

lemma setStoredVersion_idb_marker (env : SyncEnv) (st : Store) (k s : String)
    (h : s ≠ "") :
    (setStoredVersion env st k (some s)).idb (withUserScope env (versionKey k)).1 =
      some (Val.str s) := by
  simp [setStoredVersion, h, setIdb]

/-- An upload that fails at the storage layer never returns a path. -/
lemma uploadAsset_fail_no_path (env : SyncEnv) (remote : RemoteObjs)
    (key : String) (file : FileBlob) (h : env.uploadFails = true)
    (p : String) (r2 : RemoteObjs) :
    uploadAsset env remote key file ≠ Except.ok (some p, r2) := by
  unfold uploadAsset
  by_cases hk : key = ""
  · simp [hk]
  · simp only [hk, if_false]
    cases env.sessionUser with
    | none => simp
    | some u => simp [h]

lemma uploadJsonAsset_fail_no_path (env : SyncEnv) (remote : RemoteObjs)
    (key : String) (data : Json) (h : env.uploadFails = true)
    (p : String) (r2 : RemoteObjs) :
    uploadJsonAsset env remote key data ≠ Except.ok (some p, r2) := by
  unfold uploadJsonAsset
  by_cases hk : key = ""
  · simp [hk]
  · simpa [hk] using uploadAsset_fail_no_path env remote key _ h p r2

/-- JS `saveBlob` always leaves the saved blob under the owner-scoped key. -/
lemma saveBlob_idb_scoped (env : SyncEnv) (st : Store) (k : String) (b : FileBlob) :
    (saveBlob env st k b).idb (withUserScope env k).1 = some (Val.blob b) := by
  cases hthrow : env.sessionThrows with
  | true => simp [saveBlob, hthrow, setIdb]
  | false =>
    cases hsu : env.sessionUser with
    | none => simp [saveBlob, hthrow, hsu, setIdb]
    | some u =>
      cases hup : uploadAsset env st.remote k b with
      | error e => simp [saveBlob, hthrow, hsu, setIdb, hup]
      | ok pr =>
        obtain ⟨p, r2⟩ := pr
        have hne := scoped_ne_marker env k
        simp only [saveBlob, hthrow, hsu, Bool.false_eq_true, if_false]
        have hrem : (setIdb st (withUserScope env k).1 (Val.blob b)).remote = st.remote := rfl
        rw [hrem, hup]
        rw [setStoredVersion_idb_ne _ _ _ _ _ hne]
        exact setIdb_idb_self ..

/-- JS `saveBlob` touches no local key other than the scoped content key and the
scoped version-marker key. -/
lemma saveBlob_idb_other (env : SyncEnv) (st : Store) (k : String) (b : FileBlob)
    (q : String) (h1 : q ≠ (withUserScope env k).1)
    (h2 : q ≠ (withUserScope env (versionKey k)).1) :
    (saveBlob env st k b).idb q = st.idb q := by
  cases hthrow : env.sessionThrows with
  | true => simp [saveBlob, hthrow, setIdb, h1]
  | false =>
    cases hsu : env.sessionUser with
    | none => simp [saveBlob, hthrow, hsu, setIdb, h1]
    | some u =>
      cases hup : uploadAsset env st.remote k b with
      | error e => simp [saveBlob, hthrow, hsu, setIdb, hup, h1]
      | ok pr =>
        obtain ⟨p, r2⟩ := pr
        simp only [saveBlob, hthrow, hsu, Bool.false_eq_true, if_false]
        have hrem : (setIdb st (withUserScope env k).1 (Val.blob b)).remote = st.remote := rfl
        rw [hrem, hup]
        rw [setStoredVersion_idb_ne _ _ _ _ _ h2]
        exact setIdb_idb_ne _ _ _ _ h1

lemma saveJson_idb_other (env : SyncEnv) (st : Store) (k : String) (j : Json)
    (q : String) (h1 : q ≠ (withUserScope env k).1)
    (h2 : q ≠ (withUserScope env (versionKey k)).1) :
    (saveJson env st k j).idb q = st.idb q := by
  cases hthrow : env.sessionThrows with
  | true => simp [saveJson, hthrow, setIdb, h1]
  | false =>
    cases hsu : env.sessionUser with
    | none => simp [saveJson, hthrow, hsu, setIdb, h1]
    | some u =>
      cases hup : uploadJsonAsset env st.remote k j with
      | error e => simp [saveJson, hthrow, hsu, setIdb, hup, h1]
      | ok pr =>
        obtain ⟨p, r2⟩ := pr
        simp only [saveJson, hthrow, hsu, Bool.false_eq_true, if_false]
        have hrem : (setIdb st (withUserScope env k).1 (Val.json j)).remote = st.remote := rfl
        rw [hrem, hup]
        rw [setStoredVersion_idb_ne _ _ _ _ _ h2]
        exact setIdb_idb_ne _ _ _ _ h1

end MenuSync

namespace MenuSync

lemma setStoredVersion_none (env : SyncEnv) (st : Store) (k : String) :
    setStoredVersion env st k none = st := rfl

lemma saveBlob_marker_of_failed (env : SyncEnv) (st : Store) (key : String)
    (B : FileBlob)
    (hfail : env.sessionUser = none ∨ env.sessionThrows = true ∨ env.uploadFails = true) :
    (saveBlob env st key B).idb (withUserScope env (versionKey key)).1 =
      st.idb (withUserScope env (versionKey key)).1 := by
  have hm : (withUserScope env (versionKey key)).1 ≠ (withUserScope env key).1 :=
    Ne.symm (scoped_ne_marker env key)
  cases hthrow : env.sessionThrows with
  | true => simp [saveBlob, hthrow, setIdb, hm]
  | false =>
    cases hsu : env.sessionUser with
    | none => simp [saveBlob, hthrow, hsu, setIdb, hm]
    | some u =>
      have hupf : env.uploadFails = true := by
        rcases hfail with h | h | h
        · rw [hsu] at h; exact absurd h (by simp)
        · rw [hthrow] at h; exact absurd h (by simp)
        · exact h
      cases hup : uploadAsset env st.remote key B with
      | error e => simp [saveBlob, hthrow, hsu, setIdb, hup, hm]
      | ok pr =>
        obtain ⟨p, r2⟩ := pr
        cases p with
        | none =>
          simp only [saveBlob, hthrow, hsu, Bool.false_eq_true, if_false]
          have hrem : (setIdb st (withUserScope env key).1 (Val.blob B)).remote =
              st.remote := rfl
          simp only [hrem, hup, setStoredVersion_none]
          exact setIdb_idb_ne _ _ _ _ hm
        | some pth =>
          exact absurd hup (uploadAsset_fail_no_path env st.remote key B hupf pth r2)

lemma saveJson_marker_of_failed (env : SyncEnv) (st : Store) (key : String)
    (J : Json)
    (hfail : env.sessionUser = none ∨ env.sessionThrows = true ∨ env.uploadFails = true) :
    (saveJson env st key J).idb (withUserScope env (versionKey key)).1 =
      st.idb (withUserScope env (versionKey key)).1 := by
  have hm : (withUserScope env (versionKey key)).1 ≠ (withUserScope env key).1 :=
    Ne.symm (scoped_ne_marker env key)
  cases hthrow : env.sessionThrows with
  | true => simp [saveJson, hthrow, setIdb, hm]
  | false =>
    cases hsu : env.sessionUser with
    | none => simp [saveJson, hthrow, hsu, setIdb, hm]
    | some u =>
      have hupf : env.uploadFails = true := by
        rcases hfail with h | h | h
        · rw [hsu] at h; exact absurd h (by simp)
        · rw [hthrow] at h; exact absurd h (by simp)
        · exact h
      cases hup : uploadJsonAsset env st.remote key J with
      | error e => simp [saveJson, hthrow, hsu, setIdb, hup, hm]
      | ok pr =>
        obtain ⟨p, r2⟩ := pr
        cases p with
        | none =>
          simp only [saveJson, hthrow, hsu, Bool.false_eq_true, if_false]
          have hrem : (setIdb st (withUserScope env key).1 (Val.json J)).remote =
              st.remote := rfl
          simp only [hrem, hup, setStoredVersion_none]
          exact setIdb_idb_ne _ _ _ _ hm
        | some pth =>
          exact absurd hup (uploadJsonAsset_fail_no_path env st.remote key J hupf pth r2)

lemma removeKey_idb (env : SyncEnv) (st : Store) (key : String) :
    (removeKey env st key).idb =
      (delIdb (delIdb st (withUserScope env key).1)
        (withUserScope env (versionKey key)).1).idb := by
  cases hthrow : env.sessionThrows with
  | true => simp [removeKey, hthrow]
  | false =>
    cases hsu : env.sessionUser with
    | none => simp [removeKey, hthrow, hsu]
    | some u =>
      cases hrf : env.removeFails with
      | true => simp [removeKey, hthrow, hsu, hrf]
      | false => simp [removeKey, hthrow, hsu, hrf]

lemma removeKeyV2_idb (env : SyncEnv) (st : Store) (key : String) :
    (removeKeyV2 env st key).idb =
      (delIdb (delIdb st (withUserScope env key).1)
        (withUserScope env (versionKey key)).1).idb := by
  cases hthrow : env.sessionThrows with
  | true => simp [removeKeyV2, hthrow]
  | false =>
    cases hsu : env.sessionUser with
    | none => simp [removeKeyV2, hthrow, hsu]
    | some u =>
      cases hrf : env.removeFails with
      | true => simp [removeKeyV2, hthrow, hsu, hrf]
      | false => simp [removeKeyV2, hthrow, hsu, hrf]

/-- A load whose scoped and global reads both miss returns absent. -/
lemma loadLocalValue_fst_none (env : SyncEnv) (st : Store) (key : String)
    (h1 : st.idb (withUserScope env key).1 = none) (h2 : st.idb key = none) :
    (loadLocalValue env st key).1 = none := by
  cases hu : env.currentUser with
  | none =>
    simp [withUserScope, hu] at h1
    simp [loadLocalValue, withUserScope, hu, h1]
  | some u =>
    simp [withUserScope, hu] at h1
    simp [loadLocalValue, withUserScope, hu, h1, h2, Ne.symm (key_ne_scoped u key)]

/-- C1: saveBlob with the remote store failing (or no session) still
completes, and an immediately following loadLocalBlob returns the blob. -/
theorem c1_local_durability_floor (env : SyncEnv) (st : Store) (key : String)
    (B : FileBlob)
    (hfail : env.sessionUser = none ∨ env.sessionThrows = true ∨ env.uploadFails = true) :
    (loadLocalBlob env (saveBlob env st key B) key).1 = some (Val.blob B) := by
  have h := saveBlob_idb_scoped env st key B
  simp [loadLocalBlob, loadLocalValue, h]

theorem c1_local_durability_floor_witness :
    noSessionEnv.sessionUser = none ∧
    (loadLocalBlob noSessionEnv (saveBlob noSessionEnv emptyStore "introVideoBlob"
        ⟨"videobytes", none⟩) "introVideoBlob").1 =
      some (Val.blob ⟨"videobytes", none⟩) :=
  ⟨rfl, c1_local_durability_floor noSessionEnv emptyStore "introVideoBlob"
      ⟨"videobytes", none⟩ (Or.inl rfl)⟩

/-- C6: if the remote write inside saveBlob / saveJson fails or is skipped
for lack of a session, the operation still completes (it is total by
construction) and the stored version marker is exactly what it was. -/
theorem c6_marker_frame_on_failed_push (env : SyncEnv) (st : Store) (key : String)
    (B : FileBlob) (J : Json)
    (hfail : env.sessionUser = none ∨ env.sessionThrows = true ∨ env.uploadFails = true) :
    (saveBlob env st key B).idb (withUserScope env (versionKey key)).1 =
      st.idb (withUserScope env (versionKey key)).1 ∧
    (saveJson env st key J).idb (withUserScope env (versionKey key)).1 =
      st.idb (withUserScope env (versionKey key)).1 :=
  ⟨saveBlob_marker_of_failed env st key B hfail,
   saveJson_marker_of_failed env st key J hfail⟩

theorem c6_marker_frame_on_failed_push_witness :
    ({ userEnv "u1" with uploadFails := true }).uploadFails = true ∧
    ((saveBlob { userEnv "u1" with uploadFails := true } emptyStore "menuBackgroundBlob"
        ⟨"img", none⟩).idb
      (withUserScope { userEnv "u1" with uploadFails := true }
        (versionKey "menuBackgroundBlob")).1 =
      emptyStore.idb (withUserScope { userEnv "u1" with uploadFails := true }
        (versionKey "menuBackgroundBlob")).1 ∧
    (saveJson { userEnv "u1" with uploadFails := true } emptyStore "menuBackgroundBlob"
        ⟨"\x7b\x7d"⟩).idb
      (withUserScope { userEnv "u1" with uploadFails := true }
        (versionKey "menuBackgroundBlob")).1 =
      emptyStore.idb (withUserScope { userEnv "u1" with uploadFails := true }
        (versionKey "menuBackgroundBlob")).1) :=
  ⟨rfl, c6_marker_frame_on_failed_push { userEnv "u1" with uploadFails := true }
      emptyStore "menuBackgroundBlob" ⟨"img", none⟩ ⟨"\x7b\x7d"⟩ (Or.inr (Or.inr rfl))⟩

/-- C7: a value under the global legacy key with nothing under the scoped
key is returned by two consecutive local loads, the first load deletes the
global key, and the repeated load changes nothing further. -/
theorem c7_legacy_migration_idempotent (env : SyncEnv) (st : Store)
    (key u : String) (v : Val) (hu : env.currentUser = some u)
    (hscoped : st.idb (u ++ "__" ++ key) = none)
    (hglobal : st.idb key = some v) :
    (loadLocalValue env st key).1 = some v ∧
    (loadLocalValue env st key).2.idb key = none ∧
    (loadLocalValue env (loadLocalValue env st key).2 key).1 = some v ∧
    (loadLocalValue env (loadLocalValue env st key).2 key).2 =
      (loadLocalValue env st key).2 := by
  have hscne : (u ++ "__" ++ key) ≠ key := Ne.symm (key_ne_scoped u key)
  have h1 : loadLocalValue env st key =
      (some v, delIdb (setIdb st (u ++ "__" ++ key) v) key) := by
    simp [loadLocalValue, withUserScope, hu, hscoped, hglobal, hscne]
  have h2 : loadLocalValue env (delIdb (setIdb st (u ++ "__" ++ key) v) key) key =
      (some v, delIdb (setIdb st (u ++ "__" ++ key) v) key) := by
    simp [loadLocalValue, withUserScope, hu, delIdb, setIdb, hscne]
  rw [h1]
  exact ⟨rfl, delIdb_idb_self .., by rw [h2], by rw [h2]⟩

theorem c7_legacy_migration_idempotent_witness :
    ((userEnv "u1").currentUser = some "u1" ∧
      (singletonStore "menuLayoutJson" (Val.json ⟨"doc"⟩)).idb
        ("u1" ++ "__" ++ "menuLayoutJson") = none ∧
      (singletonStore "menuLayoutJson" (Val.json ⟨"doc"⟩)).idb "menuLayoutJson" =
        some (Val.json ⟨"doc"⟩)) ∧
    ((loadLocalValue (userEnv "u1")
        (singletonStore "menuLayoutJson" (Val.json ⟨"doc"⟩)) "menuLayoutJson").1 =
      some (Val.json ⟨"doc"⟩) ∧
    (loadLocalValue (userEnv "u1")
        (singletonStore "menuLayoutJson" (Val.json ⟨"doc"⟩)) "menuLayoutJson").2.idb
        "menuLayoutJson" = none) := by
  refine ⟨⟨rfl, by decide, by decide⟩, ?_⟩
  have h := c7_legacy_migration_idempotent (userEnv "u1")
    (singletonStore "menuLayoutJson" (Val.json ⟨"doc"⟩)) "menuLayoutJson" "u1"
    (Val.json ⟨"doc"⟩) rfl (by decide) (by decide)
  exact ⟨h.1, h.2.1⟩

/-- C10: removeKey (both revisions) unconditionally deletes the scoped value
and its version marker, so a following local load returns absent whenever the
global unscoped legacy key holds nothing. -/
theorem c10_remove_key_local (env : SyncEnv) (st : Store) (key : String)
    (hglobal : st.idb key = none) :
    (removeKey env st key).idb (withUserScope env key).1 = none ∧
    (removeKey env st key).idb (withUserScope env (versionKey key)).1 = none ∧
    (loadLocalBlob env (removeKey env st key) key).1 = none ∧
    (removeKeyV2 env st key).idb (withUserScope env key).1 = none ∧
    (removeKeyV2 env st key).idb (withUserScope env (versionKey key)).1 = none ∧
    (loadLocalBlob env (removeKeyV2 env st key) key).1 = none := by
  have hid := removeKey_idb env st key
  have hid2 := removeKeyV2_idb env st key
  have hsm := scoped_ne_marker env key
  have hDscoped :
      (delIdb (delIdb st (withUserScope env key).1)
        (withUserScope env (versionKey key)).1).idb (withUserScope env key).1 = none := by
    rw [delIdb_idb_ne _ _ _ hsm]
    exact delIdb_idb_self ..
  have hDmarker :
      (delIdb (delIdb st (withUserScope env key).1)
        (withUserScope env (versionKey key)).1).idb
        (withUserScope env (versionKey key)).1 = none := delIdb_idb_self ..
  have hDkey :
      (delIdb (delIdb st (withUserScope env key).1)
        (withUserScope env (versionKey key)).1).idb key = none := by
    rw [delIdb_idb_ne _ _ _ (key_ne_marker env key)]
    cases hu : env.currentUser with
    | none =>
      simp only [withUserScope, hu]
      exact delIdb_idb_self ..
    | some u =>
      rw [delIdb_idb_ne]
      · exact hglobal
      · simp only [withUserScope, hu]
        exact key_ne_scoped u key
  refine ⟨?_, ?_, ?_, ?_, ?_, ?_⟩
  · rw [hid]; exact hDscoped
  · rw [hid]; exact hDmarker
  · exact loadLocalValue_fst_none env _ key (by rw [hid]; exact hDscoped)
      (by rw [hid]; exact hDkey)
  · rw [hid2]; exact hDscoped
  · rw [hid2]; exact hDmarker
  · exact loadLocalValue_fst_none env _ key (by rw [hid2]; exact hDscoped)
      (by rw [hid2]; exact hDkey)

theorem c10_remove_key_local_witness :
    ((singletonStore ("u1" ++ "__" ++ "introVideoBlob") (Val.blob ⟨"v", none⟩)).idb
        "introVideoBlob" = none) ∧
    ((removeKey (userEnv "u1")
        (singletonStore ("u1" ++ "__" ++ "introVideoBlob") (Val.blob ⟨"v", none⟩))
        "introVideoBlob").idb
      (withUserScope (userEnv "u1") "introVideoBlob").1 = none ∧
    (loadLocalBlob (userEnv "u1")
        (removeKey (userEnv "u1")
          (singletonStore ("u1" ++ "__" ++ "introVideoBlob") (Val.blob ⟨"v", none⟩))
          "introVideoBlob") "introVideoBlob").1 = none) := by
  refine ⟨by decide, ?_⟩
  have h := c10_remove_key_local (userEnv "u1")
    (singletonStore ("u1" ++ "__" ++ "introVideoBlob") (Val.blob ⟨"v", none⟩))
    "introVideoBlob" (by decide)
  exact ⟨h.1, h.2.2.1⟩

end MenuSync

namespace MenuSync

lemma downloadAssetBlob_of_downloadFails (env : SyncEnv) (remote : RemoteObjs)
    (key : String) (h : env.downloadFails = true) :
    downloadAssetBlob env remote key = none := by
  unfold downloadAssetBlob
  by_cases hk : key = ""
  · simp [hk]
  · simp only [hk, if_false]
    cases hsu : env.sessionUser with
    | none => simp
    | some u =>
      cases hl : listLatestVersionPath env remote u key with
      | none => simp [hl]
      | some p => simp [hl, h]

lemma downloadAssetBlobByPath_of_downloadFails (env : SyncEnv)
    (remote : RemoteObjs) (p : String) (h : env.downloadFails = true) :
    downloadAssetBlobByPath env remote p = none := by
  unfold downloadAssetBlobByPath
  by_cases hp : p = "" <;> simp [hp, h]

lemma downloadJsonAsset_none_of_parse (env : SyncEnv) (remote : RemoteObjs)
    (key : String)
    (h : ∀ c, downloadAssetBlob env remote key = some c → env.parse c = none) :
    downloadJsonAsset env remote key = none := by
  unfold downloadJsonAsset
  cases hdl : downloadAssetBlob env remote key with
  | none => rfl
  | some c => simp [h c hdl]

/-- C3: when the remote latest path equals the stored version marker, every
reconciliation variant reports not-updated without notifying, without
fetching, and without touching the state. -/
theorem c3_equal_versions_noop (env : SyncEnv) (st : Store) (key v : String)
    (hlatest : getLatestAssetVersion env st.remote key = some v) (hv : v ≠ "")
    (hmarker : getStoredVersion env st key = some (Val.str v)) :
    syncBlobFromCloud env st key = ⟨false, none, false, false, st⟩ ∧
    syncJsonFromCloud env st key = ⟨false, none, false, false, st⟩ ∧
    syncBlobFromCloudV2 env st key = ⟨false, none, false, false, st⟩ ∧
    syncJsonFromCloudV2 env st key = ⟨false, none, false, false, st⟩ := by
  cases hthrow : env.sessionThrows with
  | true =>
    refine ⟨?_, ?_, ?_, ?_⟩ <;>
      simp [syncBlobFromCloud, syncJsonFromCloud, syncBlobFromCloudV2,
        syncJsonFromCloudV2, hthrow]
  | false =>
    cases hsu : env.sessionUser with
    | none =>
      refine ⟨?_, ?_, ?_, ?_⟩ <;>
        simp [syncBlobFromCloud, syncJsonFromCloud, syncBlobFromCloudV2,
          syncJsonFromCloudV2, hthrow, hsu]
    | some u =>
      refine ⟨?_, ?_, ?_, ?_⟩ <;>
        simp [syncBlobFromCloud, syncJsonFromCloud, syncBlobFromCloudV2,
          syncJsonFromCloudV2, hthrow, hsu, hlatest, hv, hmarker]

theorem c3_equal_versions_noop_witness :
    (getLatestAssetVersion (userEnv "u")
        [("u/menuLayoutJson/1700000000000-menuLayoutJson.json", "\x7b\x7d")]
        "menuLayoutJson" =
      some "u/menuLayoutJson/1700000000000-menuLayoutJson.json") ∧
    (syncBlobFromCloud (userEnv "u")
        ⟨fun q => if q = "u__menuLayoutJson__remoteVersion" then
            some (Val.str "u/menuLayoutJson/1700000000000-menuLayoutJson.json")
          else none,
         [("u/menuLayoutJson/1700000000000-menuLayoutJson.json", "\x7b\x7d")]⟩
        "menuLayoutJson").updated = false := by
  refine ⟨by decide, ?_⟩
  have h := c3_equal_versions_noop (userEnv "u")
    ⟨fun q => if q = "u__menuLayoutJson__remoteVersion" then
        some (Val.str "u/menuLayoutJson/1700000000000-menuLayoutJson.json")
      else none,
     [("u/menuLayoutJson/1700000000000-menuLayoutJson.json", "\x7b\x7d")]⟩
    "menuLayoutJson" "u/menuLayoutJson/1700000000000-menuLayoutJson.json"
    (by decide) (by decide) (by decide)
  rw [h.1]

end MenuSync

namespace MenuSync

/-- C4: the remote listing reports a latest version but the content download
returns absent (the listed object vanished): reconciliation reports
not-updated and leaves the state (cache and marker) unchanged, in both
syncBlobFromCloud revisions. -/
theorem c4_race_tolerance (env : SyncEnv) (st : Store) (key v : String)
    (hlatest : getLatestAssetVersion env st.remote key = some v) (hv : v ≠ "")
    (hdf : env.downloadFails = true) :
    (syncBlobFromCloud env st key).updated = false ∧
    (syncBlobFromCloud env st key).st = st ∧
    (syncBlobFromCloudV2 env st key).updated = false ∧
    (syncBlobFromCloudV2 env st key).st = st := by
  have hdl := downloadAssetBlob_of_downloadFails env st.remote key hdf
  cases hthrow : env.sessionThrows with
  | true =>
    refine ⟨?_, ?_, ?_, ?_⟩ <;>
      simp [syncBlobFromCloud, syncBlobFromCloudV2, hthrow]
  | false =>
    cases hsu : env.sessionUser with
    | none =>
      refine ⟨?_, ?_, ?_, ?_⟩ <;>
        simp [syncBlobFromCloud, syncBlobFromCloudV2, hthrow, hsu]
    | some u =>
      have hA :
          (syncBlobFromCloud env st key).updated = false ∧
          (syncBlobFromCloud env st key).st = st := by
        by_cases hm : getStoredVersion env st key = some (Val.str v)
        · constructor <;>
            simp [syncBlobFromCloud, hthrow, hsu, hlatest, hv, hm]
        · constructor <;>
            simp [syncBlobFromCloud, hthrow, hsu, hlatest, hv, hm, hdl]
      have hblob :
          (if looksLikeFilePath key (getStoredVersion env st key) then
            match getStoredVersion env st key with
            | some (Val.str p) => downloadAssetBlobByPath env st.remote p
            | _ => none
          else downloadAssetBlob env st.remote key) = none := by
        by_cases hlk : looksLikeFilePath key (getStoredVersion env st key)
        · simp only [hlk, if_true]
          cases hlv : getStoredVersion env st key with
          | none => rfl
          | some val =>
            cases val with
            | str p => exact downloadAssetBlobByPath_of_downloadFails env st.remote p hdf
            | blob b => rfl
            | json j => rfl
        · simp [hlk, hdl]
      have hB :
          (syncBlobFromCloudV2 env st key).updated = false ∧
          (syncBlobFromCloudV2 env st key).st = st := by
        by_cases hm : getStoredVersion env st key = some (Val.str v)
        · constructor <;>
            simp [syncBlobFromCloudV2, hthrow, hsu, hlatest, hv, hm]
        · constructor <;>
            simp [syncBlobFromCloudV2, hthrow, hsu, hlatest, hv, hm, hblob]
      exact ⟨hA.1, hA.2, hB.1, hB.2⟩

theorem c4_race_tolerance_witness :
    (getLatestAssetVersion { userEnv "u" with downloadFails := true }
        [("u/introVideoBlob/1700000000000-a.mp4", "bytes")] "introVideoBlob" =
      some "u/introVideoBlob/1700000000000-a.mp4") ∧
    ((syncBlobFromCloud { userEnv "u" with downloadFails := true }
        ⟨fun _ => none, [("u/introVideoBlob/1700000000000-a.mp4", "bytes")]⟩
        "introVideoBlob").updated = false ∧
      (syncBlobFromCloud { userEnv "u" with downloadFails := true }
        ⟨fun _ => none, [("u/introVideoBlob/1700000000000-a.mp4", "bytes")]⟩
        "introVideoBlob").st =
        ⟨fun _ => none, [("u/introVideoBlob/1700000000000-a.mp4", "bytes")]⟩) := by
  refine ⟨by decide, ?_⟩
  have h := c4_race_tolerance { userEnv "u" with downloadFails := true }
    ⟨fun _ => none, [("u/introVideoBlob/1700000000000-a.mp4", "bytes")]⟩
    "introVideoBlob" "u/introVideoBlob/1700000000000-a.mp4"
    (by decide) (by decide) rfl
  exact ⟨h.1, h.2.1⟩

/-- C5: when the fetched remote bytes fail to parse as JSON, both
syncJsonFromCloud revisions report not-updated and leave the cached state
unchanged. -/
theorem c5_json_corruption_safety (env : SyncEnv) (st : Store) (key : String)
    (h1 : ∀ c, downloadAssetBlob env st.remote key = some c → env.parse c = none)
    (h2 : ∀ p c, getStoredVersion env st key = some (Val.str p) →
      downloadAssetBlobByPath env st.remote p = some c → env.parse c = none) :
    (syncJsonFromCloud env st key).updated = false ∧
    (syncJsonFromCloud env st key).st = st ∧
    (syncJsonFromCloudV2 env st key).updated = false ∧
    (syncJsonFromCloudV2 env st key).st = st := by
  have hdl := downloadJsonAsset_none_of_parse env st.remote key h1
  cases hthrow : env.sessionThrows with
  | true =>
    refine ⟨?_, ?_, ?_, ?_⟩ <;>
      simp [syncJsonFromCloud, syncJsonFromCloudV2, hthrow]
  | false =>
    cases hsu : env.sessionUser with
    | none =>
      refine ⟨?_, ?_, ?_, ?_⟩ <;>
        simp [syncJsonFromCloud, syncJsonFromCloudV2, hthrow, hsu]
    | some u =>
      have hA :
          (syncJsonFromCloud env st key).updated = false ∧
          (syncJsonFromCloud env st key).st = st := by
        cases hlatest : getLatestAssetVersion env st.remote key with
        | none =>
          constructor <;> simp [syncJsonFromCloud, hthrow, hsu, hlatest]
        | some v =>
          by_cases hv : v = ""
          · constructor <;> simp [syncJsonFromCloud, hthrow, hsu, hlatest, hv]
          · by_cases hm : getStoredVersion env st key = some (Val.str v)
            · constructor <;>
                simp [syncJsonFromCloud, hthrow, hsu, hlatest, hv, hm]
            · constructor <;>
                simp [syncJsonFromCloud, hthrow, hsu, hlatest, hv, hm, hdl]
      have hjson :
          (if looksLikeFilePath key (getStoredVersion env st key) then
            match getStoredVersion env st key with
            | some (Val.str p) =>
              match downloadAssetBlobByPath env st.remote p with
              | some content => env.parse content
              | none => none
            | _ => none
          else downloadJsonAsset env st.remote key) = none := by
        by_cases hlk : looksLikeFilePath key (getStoredVersion env st key)
        · simp only [hlk, if_true]
          cases hlv : getStoredVersion env st key with
          | none => rfl
          | some val =>
            cases val with
            | str p =>
              cases hbp : downloadAssetBlobByPath env st.remote p with
              | none => simp [hbp]
              | some c => simp [hbp, h2 p c hlv hbp]
            | blob b => rfl
            | json j => rfl
        · simp [hlk, hdl]
      have hB :
          (syncJsonFromCloudV2 env st key).updated = false ∧
          (syncJsonFromCloudV2 env st key).st = st := by
        cases hlatest : getLatestAssetVersion env st.remote key with
        | none =>
          constructor <;>
            simp [syncJsonFromCloudV2, hthrow, hsu, hlatest, hjson]
        | some v =>
          by_cases hv : v = ""
          · constructor <;>
              simp [syncJsonFromCloudV2, hthrow, hsu, hlatest, hv, hjson]
          · by_cases hm : getStoredVersion env st key = some (Val.str v)
            · constructor <;>
                simp [syncJsonFromCloudV2, hthrow, hsu, hlatest, hv, hm]
            · constructor <;>
                simp [syncJsonFromCloudV2, hthrow, hsu, hlatest, hv, hm, hjson]
      exact ⟨hA.1, hA.2, hB.1, hB.2⟩

theorem c5_json_corruption_safety_witness :
    ((userEnv "u").parse "not json" = none) ∧
    ((syncJsonFromCloud (userEnv "u")
        ⟨fun _ => none, [("u/menuLayoutJson/1700000000000-x.json", "not json")]⟩
        "menuLayoutJson").updated = false ∧
      (syncJsonFromCloud (userEnv "u")
        ⟨fun _ => none, [("u/menuLayoutJson/1700000000000-x.json", "not json")]⟩
        "menuLayoutJson").st =
        ⟨fun _ => none, [("u/menuLayoutJson/1700000000000-x.json", "not json")]⟩) := by
  refine ⟨rfl, ?_⟩
  have h := c5_json_corruption_safety (userEnv "u")
    ⟨fun _ => none, [("u/menuLayoutJson/1700000000000-x.json", "not json")]⟩
    "menuLayoutJson" (fun c _ => rfl) (fun p c _ _ => rfl)
  exact ⟨h.1, h.2.1⟩

end MenuSync

namespace MenuSync

/-- First-revision blob reconciliation is idempotent: the second of two
back-to-back passes reports not-updated and leaves the state of the first. -/
lemma syncBlob_idem (env : SyncEnv) (st : Store) (key : String) :
    (syncBlobFromCloud env (syncBlobFromCloud env st key).st key).updated = false ∧
    (syncBlobFromCloud env (syncBlobFromCloud env st key).st key).st =
      (syncBlobFromCloud env st key).st := by
  cases hthrow : env.sessionThrows with
  | true => constructor <;> simp [syncBlobFromCloud, hthrow]
  | false =>
    cases hsu : env.sessionUser with
    | none => constructor <;> simp [syncBlobFromCloud, hthrow, hsu]
    | some u =>
      cases hlatest : getLatestAssetVersion env st.remote key with
      | none => constructor <;> simp [syncBlobFromCloud, hthrow, hsu, hlatest]
      | some v =>
        by_cases hv : v = ""
        · constructor <;> simp [syncBlobFromCloud, hthrow, hsu, hlatest, hv]
        · by_cases hm : getStoredVersion env st key = some (Val.str v)
          · constructor <;> simp [syncBlobFromCloud, hthrow, hsu, hlatest, hv, hm]
          · cases hdl : downloadAssetBlob env st.remote key with
            | none =>
              constructor <;>
                simp [syncBlobFromCloud, hthrow, hsu, hlatest, hv, hm, hdl]
            | some c =>
              have hr1 : syncBlobFromCloud env st key =
                  ⟨true, some (Val.blob ⟨c, none⟩), true, true,
                    setStoredVersion env
                      (setIdb st (withUserScope env key).1 (Val.blob ⟨c, none⟩))
                      key (some v)⟩ := by
                simp [syncBlobFromCloud, hthrow, hsu, hlatest, hv, hm, hdl]
              rw [hr1]
              have h2rem :
                  (setStoredVersion env
                    (setIdb st (withUserScope env key).1 (Val.blob ⟨c, none⟩))
                    key (some v)).remote = st.remote :=
                setStoredVersion_remote ..
              have h2latest :
                  getLatestAssetVersion env
                    (setStoredVersion env
                      (setIdb st (withUserScope env key).1 (Val.blob ⟨c, none⟩))
                      key (some v)).remote key = some v := by
                rw [h2rem]; exact hlatest
              have h2marker :
                  getStoredVersion env
                    (setStoredVersion env
                      (setIdb st (withUserScope env key).1 (Val.blob ⟨c, none⟩))
                      key (some v)) key = some (Val.str v) :=
                setStoredVersion_idb_marker env _ key v hv
              constructor <;>
                simp [syncBlobFromCloud, hthrow, hsu, h2latest, hv, h2marker]

/-- First-revision JSON reconciliation is idempotent. -/
lemma syncJson_idem (env : SyncEnv) (st : Store) (key : String) :
    (syncJsonFromCloud env (syncJsonFromCloud env st key).st key).updated = false ∧
    (syncJsonFromCloud env (syncJsonFromCloud env st key).st key).st =
      (syncJsonFromCloud env st key).st := by
  cases hthrow : env.sessionThrows with
  | true => constructor <;> simp [syncJsonFromCloud, hthrow]
  | false =>
    cases hsu : env.sessionUser with
    | none => constructor <;> simp [syncJsonFromCloud, hthrow, hsu]
    | some u =>
      cases hlatest : getLatestAssetVersion env st.remote key with
      | none => constructor <;> simp [syncJsonFromCloud, hthrow, hsu, hlatest]
      | some v =>
        by_cases hv : v = ""
        · constructor <;> simp [syncJsonFromCloud, hthrow, hsu, hlatest, hv]
        · by_cases hm : getStoredVersion env st key = some (Val.str v)
          · constructor <;> simp [syncJsonFromCloud, hthrow, hsu, hlatest, hv, hm]
          · cases hdl : downloadJsonAsset env st.remote key with
            | none =>
              constructor <;>
                simp [syncJsonFromCloud, hthrow, hsu, hlatest, hv, hm, hdl]
            | some j =>
              have hr1 : syncJsonFromCloud env st key =
                  ⟨true, some (Val.json j), true, true,
                    setStoredVersion env
                      (setIdb st (withUserScope env key).1 (Val.json j))
                      key (some v)⟩ := by
                simp [syncJsonFromCloud, hthrow, hsu, hlatest, hv, hm, hdl]
              rw [hr1]
              have h2rem :
                  (setStoredVersion env
                    (setIdb st (withUserScope env key).1 (Val.json j))
                    key (some v)).remote = st.remote :=
                setStoredVersion_remote ..
              have h2latest :
                  getLatestAssetVersion env
                    (setStoredVersion env
                      (setIdb st (withUserScope env key).1 (Val.json j))
                      key (some v)).remote key = some v := by
                rw [h2rem]; exact hlatest
              have h2marker :
                  getStoredVersion env
                    (setStoredVersion env
                      (setIdb st (withUserScope env key).1 (Val.json j))
                      key (some v)) key = some (Val.str v) :=
                setStoredVersion_idb_marker env _ key v hv
              constructor <;>
                simp [syncJsonFromCloud, hthrow, hsu, h2latest, hv, h2marker]

end MenuSync

namespace MenuSync

/-- Later-revision blob reconciliation is idempotent provided the remote
listing reports a latest version. -/
lemma syncBlobV2_idem (env : SyncEnv) (st : Store) (key v : String)
    (hlatest : getLatestAssetVersion env st.remote key = some v) (hv : v ≠ "") :
    (syncBlobFromCloudV2 env (syncBlobFromCloudV2 env st key).st key).updated = false ∧
    (syncBlobFromCloudV2 env (syncBlobFromCloudV2 env st key).st key).st =
      (syncBlobFromCloudV2 env st key).st := by
  cases hthrow : env.sessionThrows with
  | true => constructor <;> simp [syncBlobFromCloudV2, hthrow]
  | false =>
    cases hsu : env.sessionUser with
    | none => constructor <;> simp [syncBlobFromCloudV2, hthrow, hsu]
    | some u =>
      by_cases hm : getStoredVersion env st key = some (Val.str v)
      · constructor <;>
          simp [syncBlobFromCloudV2, hthrow, hsu, hlatest, hv, hm]
      · cases hblob : (if looksLikeFilePath key (getStoredVersion env st key) then
            match getStoredVersion env st key with
            | some (Val.str p) => downloadAssetBlobByPath env st.remote p
            | _ => none
          else downloadAssetBlob env st.remote key) with
        | none =>
          constructor <;>
            simp [syncBlobFromCloudV2, hthrow, hsu, hlatest, hv, hm, hblob]
        | some c =>
          have hr1 : syncBlobFromCloudV2 env st key =
              ⟨true, some (Val.blob ⟨c, none⟩), true, true,
                setStoredVersion env
                  (setIdb st (withUserScope env key).1 (Val.blob ⟨c, none⟩))
                  key (some v)⟩ := by
            simp [syncBlobFromCloudV2, hthrow, hsu, hlatest, hv, hm, hblob]
          rw [hr1]
          have h2rem :
              (setStoredVersion env
                (setIdb st (withUserScope env key).1 (Val.blob ⟨c, none⟩))
                key (some v)).remote = st.remote :=
            setStoredVersion_remote ..
          have h2latest :
              getLatestAssetVersion env
                (setStoredVersion env
                  (setIdb st (withUserScope env key).1 (Val.blob ⟨c, none⟩))
                  key (some v)).remote key = some v := by
            rw [h2rem]; exact hlatest
          have h2marker :
              getStoredVersion env
                (setStoredVersion env
                  (setIdb st (withUserScope env key).1 (Val.blob ⟨c, none⟩))
                  key (some v)) key = some (Val.str v) :=
            setStoredVersion_idb_marker env _ key v hv
          constructor <;>
            simp [syncBlobFromCloudV2, hthrow, hsu, h2latest, hv, h2marker]

/-- Later-revision JSON reconciliation is idempotent provided the remote
listing reports a latest version. -/
lemma syncJsonV2_idem (env : SyncEnv) (st : Store) (key v : String)
    (hlatest : getLatestAssetVersion env st.remote key = some v) (hv : v ≠ "") :
    (syncJsonFromCloudV2 env (syncJsonFromCloudV2 env st key).st key).updated = false ∧
    (syncJsonFromCloudV2 env (syncJsonFromCloudV2 env st key).st key).st =
      (syncJsonFromCloudV2 env st key).st := by
  cases hthrow : env.sessionThrows with
  | true => constructor <;> simp [syncJsonFromCloudV2, hthrow]
  | false =>
    cases hsu : env.sessionUser with
    | none => constructor <;> simp [syncJsonFromCloudV2, hthrow, hsu]
    | some u =>
      by_cases hm : getStoredVersion env st key = some (Val.str v)
      · constructor <;>
          simp [syncJsonFromCloudV2, hthrow, hsu, hlatest, hv, hm]
      · cases hjson : (if looksLikeFilePath key (getStoredVersion env st key) then
            match getStoredVersion env st key with
            | some (Val.str p) =>
              match downloadAssetBlobByPath env st.remote p with
              | some content => env.parse content
              | none => none
            | _ => none
          else downloadJsonAsset env st.remote key) with
        | none =>
          constructor <;>
            simp [syncJsonFromCloudV2, hthrow, hsu, hlatest, hv, hm, hjson]
        | some j =>
          have hr1 : syncJsonFromCloudV2 env st key =
              ⟨true, some (Val.json j), true, true,
                setStoredVersion env
                  (setIdb st (withUserScope env key).1 (Val.json j))
                  key (some v)⟩ := by
            simp [syncJsonFromCloudV2, hthrow, hsu, hlatest, hv, hm, hjson]
          rw [hr1]
          have h2rem :
              (setStoredVersion env
                (setIdb st (withUserScope env key).1 (Val.json j))
                key (some v)).remote = st.remote :=
            setStoredVersion_remote ..
          have h2latest :
              getLatestAssetVersion env
                (setStoredVersion env
                  (setIdb st (withUserScope env key).1 (Val.json j))
                  key (some v)).remote key = some v := by
            rw [h2rem]; exact hlatest
          have h2marker :
              getStoredVersion env
                (setStoredVersion env
                  (setIdb st (withUserScope env key).1 (Val.json j))
                  key (some v)) key = some (Val.str v) :=
            setStoredVersion_idb_marker env _ key v hv
          constructor <;>
            simp [syncJsonFromCloudV2, hthrow, hsu, h2latest, hv, h2marker]

end MenuSync

namespace MenuSync

/-- C2 (amended): with no intervening remote write, a second reconciliation
pass reports not-updated and leaves the cached state of the first pass
byte-identical — unconditionally for the first-revision sync functions, and
for the later-revision sync functions provided the remote listing reports a
latest version (the counterexample shows the later revision re-fetching and
reporting updated again when listing is unavailable). -/
theorem c2_sync_idempotent_amended (env : SyncEnv) (st : Store) (key : String) :
    ((syncBlobFromCloud env (syncBlobFromCloud env st key).st key).updated = false ∧
     (syncBlobFromCloud env (syncBlobFromCloud env st key).st key).st =
       (syncBlobFromCloud env st key).st) ∧
    ((syncJsonFromCloud env (syncJsonFromCloud env st key).st key).updated = false ∧
     (syncJsonFromCloud env (syncJsonFromCloud env st key).st key).st =
       (syncJsonFromCloud env st key).st) ∧
    (∀ v, getLatestAssetVersion env st.remote key = some v → v ≠ "" →
      ((syncBlobFromCloudV2 env (syncBlobFromCloudV2 env st key).st key).updated = false ∧
       (syncBlobFromCloudV2 env (syncBlobFromCloudV2 env st key).st key).st =
         (syncBlobFromCloudV2 env st key).st) ∧
      ((syncJsonFromCloudV2 env (syncJsonFromCloudV2 env st key).st key).updated = false ∧
       (syncJsonFromCloudV2 env (syncJsonFromCloudV2 env st key).st key).st =
         (syncJsonFromCloudV2 env st key).st)) :=
  ⟨syncBlob_idem env st key, syncJson_idem env st key,
   fun v hlatest hv =>
     ⟨syncBlobV2_idem env st key v hlatest hv, syncJsonV2_idem env st key v hlatest hv⟩⟩

/-- C2 counterexample: for the later-revision `syncBlobFromCloud` (lines
330-368), with the folder listing unavailable but the stored version path
downloadable, the first pass completes with `updated = true`, performs no
remote write, and the second pass again reports `updated = true`, not
`updated = false` as claimed. -/
theorem c2_counterexample :
    (syncBlobFromCloudV2 { userEnv "u" with listFails := true }
      ⟨fun q => if q = "u__menuBackgroundBlob__remoteVersion" then
          some (Val.str "u/menuBackgroundBlob/1700000000000-a.png") else none,
        [("u/menuBackgroundBlob/1700000000000-a.png", "X")]⟩
      "menuBackgroundBlob").updated = true ∧
    (syncBlobFromCloudV2 { userEnv "u" with listFails := true }
      ⟨fun q => if q = "u__menuBackgroundBlob__remoteVersion" then
          some (Val.str "u/menuBackgroundBlob/1700000000000-a.png") else none,
        [("u/menuBackgroundBlob/1700000000000-a.png", "X")]⟩
      "menuBackgroundBlob").st.remote =
      [("u/menuBackgroundBlob/1700000000000-a.png", "X")] ∧
    (syncBlobFromCloudV2 { userEnv "u" with listFails := true }
      (syncBlobFromCloudV2 { userEnv "u" with listFails := true }
        ⟨fun q => if q = "u__menuBackgroundBlob__remoteVersion" then
            some (Val.str "u/menuBackgroundBlob/1700000000000-a.png") else none,
          [("u/menuBackgroundBlob/1700000000000-a.png", "X")]⟩
        "menuBackgroundBlob").st
      "menuBackgroundBlob").updated = true :=
  ⟨by decide, by decide, by decide⟩

theorem c2_sync_idempotent_amended_witness :
    (getLatestAssetVersion (userEnv "u")
      [("u/menuLayoutJson/1700000000000-x.json", "\x7b\x7d")] "menuLayoutJson" =
      some "u/menuLayoutJson/1700000000000-x.json") ∧
    ((syncBlobFromCloudV2 (userEnv "u")
        (syncBlobFromCloudV2 (userEnv "u")
          ⟨fun _ => none, [("u/menuLayoutJson/1700000000000-x.json", "\x7b\x7d")]⟩
          "menuLayoutJson").st "menuLayoutJson").updated = false ∧
     (syncBlobFromCloud (userEnv "u")
        (syncBlobFromCloud (userEnv "u")
          ⟨fun _ => none, [("u/menuLayoutJson/1700000000000-x.json", "\x7b\x7d")]⟩
          "menuLayoutJson").st "menuLayoutJson").updated = false) := by
  refine ⟨by decide, ?_, ?_⟩
  · exact (((c2_sync_idempotent_amended (userEnv "u")
      ⟨fun _ => none, [("u/menuLayoutJson/1700000000000-x.json", "\x7b\x7d")]⟩
      "menuLayoutJson").2.2 "u/menuLayoutJson/1700000000000-x.json"
      (by decide) (by decide)).1).1
  · exact ((c2_sync_idempotent_amended (userEnv "u")
      ⟨fun _ => none, [("u/menuLayoutJson/1700000000000-x.json", "\x7b\x7d")]⟩
      "menuLayoutJson").1).1

end MenuSync

namespace MenuSync

lemma string_data_inj (a b : String) (h : a.data = b.data) : a = b := by
  cases a; cases b; exact congrArg String.mk h

/-- The `user ++ "__" ++ key` scoping is injective in the owner for a fixed
key. -/
lemma scoped_inj (a b k : String) (h : a ++ "__" ++ k = b ++ "__" ++ k) :
    a = b := by
  have hd := congrArg String.data h
  rw [str_data_append, str_data_append, str_data_append, str_data_append] at hd
  have h1 := List.append_cancel_right hd
  have h2 := List.append_cancel_right h1
  exact string_data_inj a b h2

/-- The data a load returns is a function of the two cache cells it reads
(the scoped key and the global legacy key). -/
lemma loadLocalValue_fst_congr (env : SyncEnv) (st st' : Store) (key : String)
    (h1 : st'.idb (withUserScope env key).1 = st.idb (withUserScope env key).1)
    (h2 : st'.idb key = st.idb key) :
    (loadLocalValue env st' key).1 = (loadLocalValue env st key).1 := by
  dsimp only [loadLocalValue]
  rw [h1, h2]
  cases st.idb (withUserScope env key).1 with
  | some d => rfl
  | none =>
    cases hu : (withUserScope env key).2 with
    | none => rfl
    | some u =>
      by_cases hk : (withUserScope env key).1 = key
      · simp [hk]
      · simp only [hk, if_false]
        cases st.idb key with
        | some f => rfl
        | none => rfl

/-- C9 (amended): between two distinct authenticated owners the local layer
is non-interfering — a save by owner `a` does not change what a load by
owner `b` returns at the same key — provided `b`'s scoped key does not
collide with `a`'s marker key (string-concatenated namespacing admits forged
collisions such as `b = a ++ "__remoteVersion"` at key `"remoteVersion"`).
A value written with no session lands under the global unscoped key and is
adopted by the first authenticated owner that loads it (see the
counterexample), so no-session writes are excluded here. -/
theorem c9_owner_isolation_amended (envA envB : SyncEnv) (st : Store)
    (key a b : String) (B : FileBlob) (J : Json)
    (ha : envA.currentUser = some a) (hb : envB.currentUser = some b)
    (hab : a ≠ b)
    (hcollide : b ++ "__" ++ key ≠ a ++ "__" ++ versionKey key) :
    (loadLocalValue envB (saveBlob envA st key B) key).1 =
      (loadLocalValue envB st key).1 ∧
    (loadLocalValue envB (saveJson envA st key J) key).1 =
      (loadLocalValue envB st key).1 := by
  have hWA1 : (withUserScope envA key).1 = a ++ "__" ++ key := by
    simp [withUserScope, ha]
  have hWA2 : (withUserScope envA (versionKey key)).1 = a ++ "__" ++ versionKey key := by
    simp [withUserScope, ha]
  have hWB1 : (withUserScope envB key).1 = b ++ "__" ++ key := by
    simp [withUserScope, hb]
  have hR1W1 : (withUserScope envB key).1 ≠ (withUserScope envA key).1 := by
    rw [hWA1, hWB1]
    intro h
    exact hab (scoped_inj b a key h).symm
  have hR1W2 : (withUserScope envB key).1 ≠ (withUserScope envA (versionKey key)).1 := by
    rw [hWA2, hWB1]
    exact hcollide
  have hR2W1 : key ≠ (withUserScope envA key).1 := by
    rw [hWA1]
    exact key_ne_scoped a key
  have hR2W2 : key ≠ (withUserScope envA (versionKey key)).1 :=
    key_ne_marker envA key
  constructor
  · exact loadLocalValue_fst_congr envB st _ key
      (saveBlob_idb_other envA st key B _ hR1W1 hR1W2)
      (saveBlob_idb_other envA st key B _ hR2W1 hR2W2)
  · exact loadLocalValue_fst_congr envB st _ key
      (saveJson_idb_other envA st key J _ hR1W1 hR1W2)
      (saveJson_idb_other envA st key J _ hR2W1 hR2W2)

/-- C9 counterexample: a blob saved while no user session exists is stored
under the global unscoped key, and a local load performed while `u2` is the
current user returns exactly that saved value (the legacy migration adopts
it into `u2`'s scope) — so a value written with no session does become
readable under an authenticated owner. -/
theorem c9_counterexample :
    (loadLocalBlob (userEnv "u2")
      (saveBlob noSessionEnv emptyStore "introVideoBlob" ⟨"secret", none⟩)
      "introVideoBlob").1 = some (Val.blob ⟨"secret", none⟩) ∧
    (loadLocalBlob (userEnv "u2") emptyStore "introVideoBlob").1 = none := by
  constructor <;> decide

theorem c9_owner_isolation_amended_witness :
    ("u1" : String) ≠ "u2" ∧
    (loadLocalValue (userEnv "u2")
      (saveBlob (userEnv "u1") emptyStore "menuBackgroundBlob" ⟨"pic", none⟩)
      "menuBackgroundBlob").1 =
      (loadLocalValue (userEnv "u2") emptyStore "menuBackgroundBlob").1 := by
  refine ⟨by decide, ?_⟩
  exact (c9_owner_isolation_amended (userEnv "u1") (userEnv "u2") emptyStore
    "menuBackgroundBlob" "u1" "u2" ⟨"pic", none⟩ ⟨"\x7b\x7d"⟩ rfl rfl
    (by decide) (by decide)).1

end MenuSync

namespace MenuSync

lemma charLtB_irrefl (a : Char) : charLtB a a = false := by simp [charLtB]

lemma digitChar_lt (n m : Nat) (h : n < m) (hm : m < 10) :
    charLtB (digitChar n) (digitChar m) = true := by
  interval_cases m <;> interval_cases n <;> decide

lemma natDigitsAux_fuel : ∀ (n f g : Nat), n < f → n < g →
    natDigitsAux f n = natDigitsAux g n := by
  intro n
  induction n using Nat.strong_induction_on with
  | _ n ih =>
    intro f g hf hg
    cases f with
    | zero => omega
    | succ f =>
      cases g with
      | zero => omega
      | succ g =>
        simp only [natDigitsAux]
        by_cases h : n < 10
        · simp [h]
        · simp only [h, if_false]
          have hpos : 0 < n := by omega
          have hdiv : n / 10 < n := Nat.div_lt_self hpos (by omega)
          rw [ih (n / 10) hdiv f g (by omega) (by omega)]

lemma natDigits_eq (n : Nat) :
    natDigits n = if n < 10 then [digitChar n]
      else natDigits (n / 10) ++ [digitChar (n % 10)] := by
  have h1 : natDigits n =
      (if n < 10 then [digitChar n]
        else natDigitsAux n (n / 10) ++ [digitChar (n % 10)]) := rfl
  rw [h1]
  by_cases h : n < 10
  · simp [h]
  · simp only [h, if_false]
    have hpos : 0 < n := by omega
    have hdiv : n / 10 < n := Nat.div_lt_self hpos (by omega)
    rw [natDigitsAux_fuel (n / 10) n (n / 10 + 1) hdiv (by omega)]
    rfl

lemma natDigits_len_pos (n : Nat) : 0 < (natDigits n).length := by
  rw [natDigits_eq]
  by_cases h : n < 10 <;> simp [h]

lemma strLtL_append_of_lt : ∀ (as bs cs ds : List Char),
    strLtL as bs = true → as.length = bs.length →
    strLtL (as ++ cs) (bs ++ ds) = true := by
  intro as
  induction as with
  | nil =>
    intro bs cs ds h hlen
    cases bs with
    | nil => simp [strLtL] at h
    | cons b bs2 => simp at hlen
  | cons a as2 ih =>
    intro bs cs ds h hlen
    cases bs with
    | nil => simp at hlen
    | cons b bs2 =>
      simp only [List.cons_append]
      rw [strLtL] at h ⊢
      cases hab : charLtB a b with
      | true => simp [hab]
      | false =>
        cases hba : charLtB b a with
        | true => simp [hab, hba] at h
        | false =>
          simp only [hab, hba, Bool.false_eq_true, if_false] at h ⊢
          exact ih bs2 cs ds h (by simpa using hlen)

lemma strLtL_append_last : ∀ (xs : List Char) (a b : Char),
    strLtL (xs ++ [a]) (xs ++ [b]) = charLtB a b := by
  intro xs
  induction xs with
  | nil =>
    intro a b
    simp only [List.nil_append]
    rw [strLtL]
    cases hab : charLtB a b with
    | true => simp [hab]
    | false =>
      cases hba : charLtB b a with
      | true => simp [hab, hba]
      | false => simp [hab, hba, strLtL]
  | cons c cs ih =>
    intro a b
    simp only [List.cons_append]
    rw [strLtL]
    simp only [charLtB_irrefl, Bool.false_eq_true, if_false]
    exact ih a b

lemma natDigits_strLt : ∀ (m n : Nat), n < m →
    (natDigits n).length = (natDigits m).length →
    strLtL (natDigits n) (natDigits m) = true := by
  intro m
  induction m using Nat.strong_induction_on with
  | _ m ih =>
    intro n hnm hlen
    by_cases hm : m < 10
    · have hn : n < 10 := lt_trans hnm hm
      rw [natDigits_eq n, natDigits_eq m]
      simp only [hn, hm, if_true]
      rw [strLtL]
      simp [digitChar_lt n m hnm hm]
    · by_cases hn : n < 10
      · exfalso
        rw [natDigits_eq n, natDigits_eq m] at hlen
        simp only [hn, hm, if_true, if_false, List.length_append,
          List.length_singleton] at hlen
        have hp := natDigits_len_pos (m / 10)
        omega
      · rw [natDigits_eq n, natDigits_eq m] at hlen ⊢
        simp only [hn, hm, if_false, List.length_append,
          List.length_singleton] at hlen ⊢
        have hlen2 : (natDigits (n / 10)).length = (natDigits (m / 10)).length := by
          omega
        have hdivle : n / 10 ≤ m / 10 := Nat.div_le_div_right (le_of_lt hnm)
        rcases lt_or_eq_of_le hdivle with hlt | heq
        · exact strLtL_append_of_lt _ _ _ _
            (ih (m / 10) (Nat.div_lt_self (by omega) (by omega)) (n / 10) hlt hlen2)
            hlen2
        · rw [heq, strLtL_append_last]
          have hmod : n % 10 < m % 10 := by omega
          exact digitChar_lt _ _ hmod (Nat.mod_lt m (by omega))

/-- Names built from equal-width decimal timestamps compare in timestamp
order, whatever the filename parts are. -/
lemma natStr_name_lt (t1 t2 : Nat) (f1 f2 : String) (h : t1 < t2)
    (hlen : (natStr t1).length = (natStr t2).length) :
    strLt (natStr t1 ++ "-" ++ f1) (natStr t2 ++ "-" ++ f2) = true := by
  unfold strLt
  rw [str_data_append, str_data_append, str_data_append, str_data_append]
  have hd1 : (natStr t1).data = natDigits t1 := rfl
  have hd2 : (natStr t2).data = natDigits t2 := rfl
  rw [hd1, hd2]
  have hlen2 : (natDigits t1).length = (natDigits t2).length := hlen
  apply strLtL_append_of_lt
  · exact strLtL_append_of_lt _ _ _ _ (natDigits_strLt t2 t1 h hlen2) hlen2
  · simp [hlen2]

lemma latestName_pair (a b : String) (h : strLt a b = true) :
    latestName [a, b] = some b := by simp [latestName, h]

end MenuSync

namespace MenuSync

/-- Re-uploading the same file at the same `Date.now()` instant computes the
same object path and is rejected by `upsert: false`. -/
lemma uploadAsset_no_overwrite (env : SyncEnv) (remote : RemoteObjs)
    (key : String) (file : FileBlob) (p : String) (r2 : RemoteObjs)
    (hup : uploadAsset env remote key file = Except.ok (some p, r2)) :
    uploadAsset env r2 key file = Except.error () := by
  by_cases hk : key = ""
  · simp [uploadAsset, hk] at hup
  · cases hsu : env.sessionUser with
    | none => simp [uploadAsset, hk, hsu] at hup
    | some userId =>
      cases huf : env.uploadFails with
      | true => simp [uploadAsset, hk, hsu, huf] at hup
      | false =>
        cases hfind : findObj remote
            (userId ++ "/" ++ key ++ "/" ++ natStr env.now ++ "-" ++
              inferredFilename key file) with
        | some c => simp [uploadAsset, hk, hsu, huf, hfind] at hup
        | none =>
          simp only [uploadAsset, hk, hsu, huf, hfind, if_false,
            Bool.false_eq_true, Except.ok.injEq, Prod.mk.injEq,
            Option.some.injEq] at hup
          obtain ⟨hp, hr⟩ := hup
          simp [uploadAsset, hk, hsu, huf, ← hr, findObj]

/-- C8 (amended): for two writes with distinct timestamps whose decimal
renderings have equal width (all `Date.now()` values between 2001 and 2286
are 13 digits), the names `timestamp-filename` produced by `uploadAsset`
sort lexicographically in creation order for any filenames, and the
descending sort of `listLatestVersionPath` selects the later write.  Equal
timestamps get no creation-order disambiguation: the name is determined by
timestamp and filename alone, and a second write of the same name is
rejected outright (`upsert: false`), while differing filenames sort by
filename, not creation order (see the counterexample). -/
theorem c8_version_order_amended (t1 t2 : Nat) (f1 f2 : String)
    (h12 : t1 < t2) (hlen : (natStr t1).length = (natStr t2).length)
    (env : SyncEnv) (remote : RemoteObjs) (key : String) (file : FileBlob)
    (p : String) (r2 : RemoteObjs)
    (hup : uploadAsset env remote key file = Except.ok (some p, r2)) :
    strLt (natStr t1 ++ "-" ++ f1) (natStr t2 ++ "-" ++ f2) = true ∧
    latestName [natStr t1 ++ "-" ++ f1, natStr t2 ++ "-" ++ f2] =
      some (natStr t2 ++ "-" ++ f2) ∧
    uploadAsset env r2 key file = Except.error () :=
  ⟨natStr_name_lt t1 t2 f1 f2 h12 hlen,
   latestName_pair _ _ (natStr_name_lt t1 t2 f1 f2 h12 hlen),
   uploadAsset_no_overwrite env remote key file p r2 hup⟩

/-- C8 counterexample: two writes sharing a timestamp.  W1 uploads filename
`b.png`, then W2 uploads filename `a.png` at the same `Date.now()`; both
succeed (distinct names), but the lexicographically greatest name in the
folder is W1's — `listLatestVersionPath` selects the earlier write, so no
disambiguating suffix restores creation order. -/
theorem c8_counterexample :
    uploadAsset (userEnv "u") [] "menuBackgroundBlob" ⟨"v1", some "b.png"⟩ =
      Except.ok (some "u/menuBackgroundBlob/1700000000000-b.png",
        [("u/menuBackgroundBlob/1700000000000-b.png", "v1")]) ∧
    uploadAsset (userEnv "u")
        [("u/menuBackgroundBlob/1700000000000-b.png", "v1")]
        "menuBackgroundBlob" ⟨"v2", some "a.png"⟩ =
      Except.ok (some "u/menuBackgroundBlob/1700000000000-a.png",
        [("u/menuBackgroundBlob/1700000000000-a.png", "v2"),
         ("u/menuBackgroundBlob/1700000000000-b.png", "v1")]) ∧
    listLatestVersionPath (userEnv "u")
        [("u/menuBackgroundBlob/1700000000000-a.png", "v2"),
         ("u/menuBackgroundBlob/1700000000000-b.png", "v1")]
        "u" "menuBackgroundBlob" =
      some "u/menuBackgroundBlob/1700000000000-b.png" :=
  ⟨rfl, rfl, rfl⟩

theorem c8_version_order_amended_witness :
    ((1700000000000 : Nat) < 1700000000001 ∧
      (natStr 1700000000000).length = (natStr 1700000000001).length ∧
      uploadAsset (userEnv "u") [] "menuBackgroundBlob" ⟨"v1", some "b.png"⟩ =
        Except.ok (some "u/menuBackgroundBlob/1700000000000-b.png",
          [("u/menuBackgroundBlob/1700000000000-b.png", "v1")])) ∧
    (strLt (natStr 1700000000000 ++ "-" ++ "x.png")
        (natStr 1700000000001 ++ "-" ++ "y.png") = true ∧
      uploadAsset (userEnv "u")
        [("u/menuBackgroundBlob/1700000000000-b.png", "v1")]
        "menuBackgroundBlob" ⟨"v1", some "b.png"⟩ = Except.error ()) := by
  refine ⟨⟨by decide, by decide, rfl⟩, ?_⟩
  have h := c8_version_order_amended 1700000000000 1700000000001 "x.png" "y.png"
    (by decide) (by decide) (userEnv "u") [] "menuBackgroundBlob"
    ⟨"v1", some "b.png"⟩ "u/menuBackgroundBlob/1700000000000-b.png"
    [("u/menuBackgroundBlob/1700000000000-b.png", "v1")] rfl
  exact ⟨h.1, h.2.2⟩

end MenuSync
